import Mathlib

/-!
Verification development for the water-tool-backend authentication core.

The definitions below are a shallow embedding of the JavaScript source:
`src/controllers/authController.js` (request workflow), `src/routes/auth.js`
and the refresh route, and the persistence/hashing layer.  The mongoose
`User` model file and the JWT middleware are not part of the published
source tree; where their behaviour is needed it is modelled from the spec
(sections 3, 4.1, 4.2 and 4.3) and every such definition carries a doc
comment saying so.  Timestamps are natural numbers, JS strings are Lean
strings (with the underlying `List Char` used for character-level work),
and absent JSON request fields are represented by the empty string, which
is exactly the set of falsy string values in JS.
-/

namespace WaterTool

/-- JS `a || b` on strings: the empty string is the only falsy string. -/
def jsOr (a b : String) : String := if a = "" then b else a

/-- Character-level trim, mirroring JS `String.prototype.trim`. -/
def trimList (l : List Char) : List Char :=
  ((l.dropWhile Char.isWhitespace).reverse.dropWhile Char.isWhitespace).reverse

/-- JS `s.trim()`. -/
def jsTrim (s : String) : String := ⟨trimList s.data⟩

/-- JS `s.split(sep)` for a single-character separator: splits on every
occurrence, keeping empty pieces, and returns `[s]` when the separator is
absent (in particular `[""]` on the empty string). -/
def splitChar (sep : Char) : List Char → List (List Char)
  | [] => [[]]
  | c :: cs =>
    match splitChar sep cs with
    | [] => [[]]
    | h :: t => if c = sep then [] :: h :: t else (c :: h) :: t

/-- JS `s.split(sep)` lifted to `String`. -/
def jsSplit (sep : Char) (s : String) : List String :=
  (splitChar sep s.data).map (fun l => ⟨l⟩)

/-- JS `parts.join(' ')`. -/
def joinSpace : List String → String
  | [] => ""
  | [x] => x
  | x :: xs => x ++ " " ++ joinSpace xs

/-- Modelled from the spec: the bcrypt salted hash used by the Password
Hasher (spec 4.2) and by `createUser`/`comparePassword` in
`src/database/index.js`.  The bcrypt library itself is external code, so a
hash value is abstracted as the pair of the salt and the hashed plaintext;
one-wayness is not modelled, but distinct salts give distinct hash values
and verification compares against the underlying plaintext. -/
structure BcryptHash where
  salt : Nat
  text : String
deriving DecidableEq

/-- Modelled from the spec: `hash(plaintext)` with an explicit salt
argument standing for the randomly generated salt (spec 4.2). -/
def bcryptHash (salt : Nat) (plaintext : String) : BcryptHash :=
  ⟨salt, plaintext⟩

/-- Modelled from the spec: `verify(plaintext, hash)` (spec 4.2), as used
by `comparePassword` in `src/database/index.js`. -/
def bcryptCompare (plaintext : String) (h : BcryptHash) : Bool :=
  plaintext = h.text

/-- Modelled from the spec: an access token issued by the Token Service
(spec 4.3); it embeds the user id, plus a nonce standing for the issuance
randomness/timestamp of the signed JWT. -/
structure AccessTok where
  userId : Nat
  nonce : Nat
deriving DecidableEq

/-- Modelled from the spec: a refresh token (spec 4.3); it embeds the user
id and a token identifier. -/
structure RefreshTok where
  userId : Nat
  nonce : Nat
deriving DecidableEq

/-- Modelled from the spec: `generateTokens(userId)` from the JWT
middleware (not under src/), which per spec 4.3 issues an access token and
a refresh token both bound to the user id; the nonce argument stands for
the freshness of the signed tokens. -/
def generateTokens (userId nonce : Nat) : AccessTok × RefreshTok :=
  (⟨userId, nonce⟩, ⟨userId, nonce⟩)

/-- The persisted user record, per spec section 3 and the fields used by
`src/controllers/authController.js` and `src/database/index.js`. -/
structure User where
  id : Nat
  username : String
  email : String
  passwordHash : BcryptHash
  firstName : String
  lastName : String
  role : String
  isActive : Bool
  lastLogin : Option Nat
  createdAt : Nat
  updatedAt : Nat
  refreshTokens : List RefreshTok
deriving DecidableEq

/-- The user store: the durable collection of user records (spec 6). -/
abbrev Store := List User

/-- Modelled from the spec: `findByIdAndUpdate` of the store — applies the
field update to the record with the given id and refreshes `updatedAt`
(spec 3: `updatedAt` refreshed on any mutation; the mongoose schema that
implements this is not under src/). -/
def findByIdAndUpdate (s : Store) (id : Nat) (g : User → User) (now : Nat) : Store :=
  s.map (fun v => if v.id = id then { g v with updatedAt := now } else v)

/-- Modelled from the spec: `addRefreshToken(id, token)` (spec 4.1), a
set-membership edit on the stored `refreshTokens` (the `User` model method
is not under src/). -/
def addRefreshTokenStore (s : Store) (id : Nat) (t : RefreshTok) : Store :=
  s.map (fun v => if v.id = id then { v with refreshTokens := v.refreshTokens ++ [t] } else v)

/-- Modelled from the spec: `removeRefreshToken(id, token)` (spec 4.1),
removing the token from the stored set (the `User` model method is not
under src/). -/
def removeRefreshTokenStore (s : Store) (id : Nat) (t : RefreshTok) : Store :=
  s.map (fun v =>
    if v.id = id then { v with refreshTokens := v.refreshTokens.filter (fun x => ¬(x = t)) } else v)

/-- JSON values appearing in response payload fields. -/
inductive JsVal
  | s (v : String)
  | n (v : Nat)
  | null
deriving DecidableEq

/-- Serialisation of a nullable timestamp field. -/
def timeVal : Option Nat → JsVal
  | none => .null
  | some t => .n t

/-- The user object of the register response (authController.js lines
98-105). -/
def registerUserView (u : User) : List (String × JsVal) :=
  [("id", .n u.id),
   ("name", .s (jsTrim (u.firstName ++ " " ++ u.lastName))),
   ("email", .s u.email),
   ("username", .s u.username),
   ("role", .s u.role),
   ("createdAt", .n u.createdAt)]

/-- The user object of the login response (authController.js lines
202-210). -/
def loginUserView (u : User) : List (String × JsVal) :=
  [("id", .n u.id),
   ("name", .s (jsTrim (u.firstName ++ " " ++ u.lastName))),
   ("email", .s u.email),
   ("username", .s u.username),
   ("role", .s u.role),
   ("lastLogin", timeVal u.lastLogin),
   ("createdAt", .n u.createdAt)]

/-- The user object of the get-profile response (authController.js lines
234-243). -/
def getCurrentUserView (u : User) : List (String × JsVal) :=
  [("id", .n u.id),
   ("name", .s (jsTrim (u.firstName ++ " " ++ u.lastName))),
   ("email", .s u.email),
   ("username", .s u.username),
   ("role", .s u.role),
   ("lastLogin", timeVal u.lastLogin),
   ("createdAt", .n u.createdAt),
   ("updatedAt", .n u.updatedAt)]

/-- The user object of the update-profile response (authController.js
lines 302-311). -/
def updateProfileView (u : User) : List (String × JsVal) :=
  [("id", .n u.id),
   ("name", .s (jsTrim (u.firstName ++ " " ++ u.lastName))),
   ("email", .s u.email),
   ("username", .s u.username),
   ("role", .s u.role),
   ("lastLogin", timeVal u.lastLogin),
   ("createdAt", .n u.createdAt),
   ("updatedAt", .n u.updatedAt)]

/-- The result the HTTP layer sends back for one request: status code,
success flag, optional message, optional user view, optional tokens. -/
structure ApiResponse where
  status : Nat
  success : Bool
  message : Option String
  userView : Option (List (String × JsVal))
  accessTok : Option AccessTok
  refreshTok : Option RefreshTok
deriving DecidableEq

/-- An error response: failure flag, message, no payload. -/
def errResp (st : Nat) (msg : String) : ApiResponse :=
  ⟨st, false, some msg, none, none, none⟩

/-- Outcome of the `validateRegistrationInput` middleware: either an early
rejection response, or `next()` (the registration handler runs). -/
inductive ValidationOutcome
  | reject (status : Nat) (message : String)
  | next
deriving DecidableEq

/-- JS regex `\w` character class (ASCII letters, digits, underscore). -/
def isWordChar (c : Char) : Bool := c.isAlphanum || c = '_'

/-- Acceptor for the regex fragment `\w+([.-]?\w+)*` after its first word
character has been consumed: word characters continue, a separator must be
followed by a word character, and the fragment may end after any word
character. -/
def l1After : List Char → Bool
  | [] => true
  | c :: rest =>
    if isWordChar c then l1After rest
    else if c = '.' || c = '-' then
      match rest with
      | [] => false
      | d :: rest2 => isWordChar d && l1After rest2
    else false

/-- Acceptor for the regex fragment `\w+([.-]?\w+)*` (the local part of
the email regex in authController.js line 35, also reused as the leading
part of its domain). -/
def l1Match : List Char → Bool
  | [] => false
  | c :: rest => isWordChar c && l1After rest

/-- Acceptor for the regex fragment `(\.\w{2,3})+`: one or more groups of
a literal dot followed by two or three word characters.  Since `\w` does
not match a dot, each `\w{2,3}` run must extend exactly to the next dot or
to the end of the input, so the matched strings are exactly those whose
dot-split is an empty leading piece followed by one or more groups of two
or three word characters. -/
def l2Match (l : List Char) : Bool :=
  match splitChar '.' l with
  | [] => false
  | h :: gs =>
    h.isEmpty && ¬gs.isEmpty &&
      gs.all (fun g => g.all isWordChar && (g.length = 2 ∨ g.length = 3))

/-- Acceptor for the domain part `\w+([.-]?\w+)*(\.\w{2,3})+` of the email
regex: some split of the input into a `\w+([.-]?\w+)*` part followed by a
`(\.\w{2,3})+` part. -/
def domainMatch (d : List Char) : Bool :=
  (List.range (d.length + 1)).any (fun i => l1Match (d.take i) && l2Match (d.drop i))

/-- Full-string acceptor for the email regex
`^\w+([.-]?\w+)*@\w+([.-]?\w+)*(\.\w{2,3})+$` of authController.js line
35: some split at an `@` into a matching local part and a matching
domain. -/
def emailRegexTest (email : String) : Bool :=
  (List.range email.data.length).any (fun i =>
    match email.data.drop i with
    | '@' :: d => l1Match (email.data.take i) && domainMatch d
    | _ => false)

/-- The characters after the last dot of a string (the whole string when
it has no dot): the final dot-separated label. -/
def lastLabel (l : List Char) : List Char :=
  ((l.reverse.takeWhile (fun c => ¬(c = '.'))).reverse)

/-- The `validateRegistrationInput` middleware (authController.js lines
5-45): required fields, confirm-password match, password length, then the
email regex; a missing request field is the empty string. -/
def validateRegistrationInput (name email password confirmPassword : String) : ValidationOutcome :=
  if name = "" ∨ email = "" ∨ password = "" then
    .reject 400 "All fields are required"
  else if confirmPassword ≠ "" ∧ password ≠ confirmPassword then
    .reject 400 "Passwords do not match"
  else if password.length < 6 then
    .reject 400 "Password must be at least 6 characters long"
  else if ¬(emailRegexTest email = true) then
    .reject 400 "Please enter a valid email"
  else
    .next

/-- The `registerUser` handler (authController.js lines 50-109): split the
name, derive the username from the email local part, reject when a user
with the same email or username exists, otherwise create the user (store
defaults and password hashing per spec 4.1, since the mongoose `User`
schema is not under src/), issue tokens, persist the refresh token and
respond with the register view.  `now` is the creation time, `newId` the
store-assigned id, `salt` the hashing salt and `nonce` the token
freshness. -/
def registerUser (s : Store) (name email password : String) (now newId salt nonce : Nat) :
    ApiResponse × Store :=
  let nameParts := jsSplit ' ' (jsTrim name)
  let firstName := jsOr (nameParts.headD "") ""
  let lastName := jsOr (joinSpace nameParts.tail) ""
  let username := (jsSplit '@' email).headD ""
  match s.find? (fun u => u.email = email ∨ u.username = username) with
  | some existingUser =>
    (errResp 400 (if existingUser.email = email then "Email already exists" else "Username already exists"), s)
  | none =>
    let user : User :=
      { id := newId, username := username, email := email,
        passwordHash := bcryptHash salt password,
        firstName := firstName, lastName := lastName,
        role := "user", isActive := true, lastLogin := none,
        createdAt := now, updatedAt := now, refreshTokens := [] }
    let toks := generateTokens user.id nonce
    let user2 := { user with refreshTokens := user.refreshTokens ++ [toks.2] }
    ({ status := 201, success := true, message := some "User registered successfully",
       userView := some (registerUserView user2),
       accessTok := some toks.1, refreshTok := some toks.2 },
     s ++ [user2])

/-- The `loginUser` handler (authController.js lines 145-224): require
email and password, look the user up by email, reject when absent,
inactive or on password mismatch, otherwise record the login time in the
store, issue tokens, persist the refresh token and respond with the login
view built from the document fetched before the `lastLogin` update. -/
def loginUser (s : Store) (email password : String) (now nonce : Nat) :
    ApiResponse × Store :=
  if email = "" ∨ password = "" then
    (errResp 400 "Email and password are required", s)
  else
    match s.find? (fun u => u.email = email) with
    | none => (errResp 401 "Invalid email or password", s)
    | some user =>
      if user.isActive = false then
        (errResp 401 "Account is deactivated", s)
      else if bcryptCompare password user.passwordHash = false then
        (errResp 401 "Invalid email or password", s)
      else
        let s1 := findByIdAndUpdate s user.id (fun v => { v with lastLogin := some now }) now
        let toks := generateTokens user.id nonce
        let s2 := addRefreshTokenStore s1 user.id toks.2
        ({ status := 200, success := true, message := some "Login successful",
           userView := some (loginUserView user),
           accessTok := some toks.1, refreshTok := some toks.2 }, s2)

/-- The `getCurrentUser` handler (authController.js lines 229-254):
returns the profile view of the already-authenticated user. -/
def getCurrentUser (reqUser : User) : ApiResponse :=
  { status := 200, success := true, message := none,
    userView := some (getCurrentUserView reqUser),
    accessTok := none, refreshTok := none }

/-- The `updateProfile` handler (authController.js lines 259-334): re-split
the supplied name (falling back to the stored first name when the first
piece is empty and to the empty string for the last name), reject an email
change to an already-taken address, then update the record (refreshing
`updatedAt`, per spec 3, through the store's `findByIdAndUpdate`) and
respond with the updated view. -/
def updateProfile (s : Store) (reqUser : User) (name email : String) (now : Nat) :
    ApiResponse × Store :=
  let names :=
    if name = "" then (reqUser.firstName, reqUser.lastName)
    else
      let nameParts := jsSplit ' ' (jsTrim name)
      (jsOr (nameParts.headD "") reqUser.firstName, jsOr (joinSpace nameParts.tail) "")
  if email ≠ "" ∧ email ≠ reqUser.email ∧ (s.find? (fun u => u.email = email)).isSome then
    (errResp 400 "Email already exists", s)
  else
    let s2 := findByIdAndUpdate s reqUser.id
      (fun v => { v with firstName := names.1, lastName := names.2, email := jsOr email reqUser.email })
      now
    match s2.find? (fun u => u.id = reqUser.id) with
    | some updatedUser =>
      ({ status := 200, success := true, message := some "Profile updated successfully",
         userView := some (updateProfileView updatedUser),
         accessTok := none, refreshTok := none }, s2)
    | none => (errResp 500 "Internal server error", s2)

/-- The refresh endpoint (`router.post('/refresh', verifyRefreshToken,
refreshToken)` in the routes file together with authController.js lines
369-398).  The `verifyRefreshToken` middleware is not under src/ and is
modelled from the spec (4.3): resolve the token's embedded user id,
failing with `InvalidTokenError` when no such user exists and with
`RevokedError` when the token is not in that user's stored set; the
handler itself then rotates the token: remove the presented one, store a
fresh one, and return the new pair. -/
def refreshEndpoint (s : Store) (tok : RefreshTok) (nonce : Nat) :
    ApiResponse × Store :=
  match s.find? (fun u => u.id = tok.userId) with
  | none => (errResp 401 "InvalidTokenError", s)
  | some user =>
    if tok ∈ user.refreshTokens then
      let toks := generateTokens user.id nonce
      let s1 := removeRefreshTokenStore s user.id tok
      let s2 := addRefreshTokenStore s1 user.id toks.2
      ({ status := 200, success := true, message := some "Token refreshed successfully",
         userView := none, accessTok := some toks.1, refreshTok := some toks.2 }, s2)
    else
      (errResp 401 "RevokedError", s)

/-! Helper lemmas about lists and the string helpers. -/

theorem takeWhile_append_stop {α} (p : α → Bool) (c : α) (hc : p c = false) :
    ∀ (x y : List α), ((x ++ c :: y).takeWhile p) = x.takeWhile p := by
  intro x y
  induction x with
  | nil => simp [List.takeWhile_cons, hc]
  | cons a x' ih =>
    by_cases hpa : p a = true
    · simp [List.takeWhile_cons, hpa, ih]
    · simp only [Bool.not_eq_true] at hpa
      simp [List.takeWhile_cons, hpa]

theorem takeWhile_append_not_all {α} (p : α → Bool) (x y : List α) (h : x.all p = false) :
    ((x ++ y).takeWhile p) = x.takeWhile p := by
  induction x with
  | nil => simp at h
  | cons a x' ih =>
    by_cases hpa : p a = true
    · simp only [List.all_cons, hpa, Bool.true_and] at h
      simp [List.takeWhile_cons, hpa, ih h]
    · simp only [Bool.not_eq_true] at hpa
      simp [List.takeWhile_cons, hpa]

theorem takeWhile_of_all {α} (p : α → Bool) (x : List α) (h : x.all p = true) :
    x.takeWhile p = x := by
  induction x with
  | nil => rfl
  | cons a x' ih =>
    simp only [List.all_cons, Bool.and_eq_true] at h
    simp [List.takeWhile_cons, h.1, ih h.2]

theorem getLastD_mem {α} (l : List α) (d : α) (h : l ≠ []) : l.getLastD d ∈ l := by
  induction l generalizing d with
  | nil => exact absurd rfl h
  | cons a t ih =>
    cases t with
    | nil => simp [List.getLastD]
    | cons b t' =>
      rw [List.getLastD_cons]
      exact List.mem_cons_of_mem a (ih a (by simp))

theorem getLastD_irrel {α} (l : List α) (d d' : α) (h : l ≠ []) :
    l.getLastD d = l.getLastD d' := by
  cases l with
  | nil => exact absurd rfl h
  | cons a t => rw [List.getLastD_cons, List.getLastD_cons]

theorem splitChar_ne_nil (sep : Char) (l : List Char) : splitChar sep l ≠ [] := by
  cases l with
  | nil => simp [splitChar]
  | cons c cs =>
    cases hsp : splitChar sep cs with
    | nil => simp [splitChar, hsp]
    | cons h t =>
      by_cases hc : c = sep <;> simp [splitChar, hsp, hc]

theorem splitChar_not_mem (sep : Char) (l : List Char) (h : sep ∉ l) :
    splitChar sep l = [l] := by
  induction l with
  | nil => rfl
  | cons c cs ih =>
    have hc : ¬(c = sep) := fun hh => h (hh ▸ List.mem_cons_self c cs)
    have hcs : sep ∉ cs := fun hh => h (List.mem_cons_of_mem _ hh)
    simp [splitChar, ih hcs, hc]

theorem splitChar_singleton (sep : Char) (l h : List Char) (hs : splitChar sep l = [h]) :
    l = h ∧ sep ∉ l := by
  induction l generalizing h with
  | nil =>
    simp only [splitChar, List.cons.injEq] at hs
    exact ⟨hs.1, by simp⟩
  | cons c cs ih =>
    cases hsp : splitChar sep cs with
    | nil => exact absurd hsp (splitChar_ne_nil sep cs)
    | cons h' t =>
      by_cases hc : c = sep
      · rw [show splitChar sep (c :: cs) = [] :: h' :: t by simp [splitChar, hsp, hc]] at hs
        simp at hs
      · rw [show splitChar sep (c :: cs) = (c :: h') :: t by simp [splitChar, hsp, hc]] at hs
        simp only [List.cons.injEq] at hs
        obtain ⟨hh, ht⟩ := hs
        subst ht
        obtain ⟨hcs, hnm⟩ := ih h' hsp
        subst hcs
        exact ⟨hh, by
          intro hmem
          rcases List.mem_cons.mp hmem with h1 | h2
          · exact hc h1.symm
          · exact hnm h2⟩

theorem mem_of_splitChar_len (sep : Char) (l : List Char)
    (h : 2 ≤ (splitChar sep l).length) : sep ∈ l := by
  by_contra hnm
  rw [splitChar_not_mem sep l hnm] at h
  simp at h

/-! Lemmas about the final dot-separated label. -/

theorem lastLabel_no_dot (l : List Char) (h : '.' ∉ l) : lastLabel l = l := by
  unfold lastLabel
  rw [takeWhile_of_all _ _ ?hall, List.reverse_reverse]
  case hall =>
    rw [List.all_eq_true]
    intro c hc
    have : c ∈ l := List.mem_reverse.mp hc
    simp only [decide_eq_true_eq]
    intro hcd
    exact h (hcd ▸ this)

theorem lastLabel_cons_dot (cs : List Char) : lastLabel ('.' :: cs) = lastLabel cs := by
  unfold lastLabel
  rw [List.reverse_cons, takeWhile_append_stop _ '.' (by simp) _ []]

theorem lastLabel_cons_mem (c : Char) (cs : List Char) (h : '.' ∈ cs) :
    lastLabel (c :: cs) = lastLabel cs := by
  unfold lastLabel
  rw [List.reverse_cons, takeWhile_append_not_all _ _ _ ?hna]
  case hna =>
    rw [Bool.eq_false_iff]
    intro hall
    rw [List.all_eq_true] at hall
    have := hall '.' (List.mem_reverse.mpr h)
    simp at this

theorem lastLabel_append_mem (pre B : List Char) (h : '.' ∈ B) :
    lastLabel (pre ++ B) = lastLabel B := by
  induction pre with
  | nil => rfl
  | cons c pre' ih =>
    rw [List.cons_append, lastLabel_cons_mem c _ (by
      exact List.mem_append.mpr (Or.inr h)), ih]

theorem lastLabel_splitChar (l : List Char) :
    lastLabel l = (splitChar '.' l).getLastD [] := by
  induction l with
  | nil => rfl
  | cons c cs ih =>
    cases hsp : splitChar '.' cs with
    | nil => exact absurd hsp (splitChar_ne_nil '.' cs)
    | cons h t =>
      by_cases hc : c = '.'
      · subst hc
        rw [show splitChar '.' ('.' :: cs) = [] :: h :: t by simp [splitChar, hsp]]
        rw [lastLabel_cons_dot, ih, hsp, List.getLastD_cons, List.getLastD_cons,
          List.getLastD_cons]
      · rw [show splitChar '.' (c :: cs) = (c :: h) :: t by simp [splitChar, hsp, hc]]
        cases t with
        | nil =>
          obtain ⟨hcs, hnm⟩ := splitChar_singleton '.' cs h hsp
          subst hcs
          rw [lastLabel_no_dot (c :: cs) (by
            intro hmem
            rcases List.mem_cons.mp hmem with h1 | h2
            · exact hc h1.symm
            · exact hnm h2)]
          rfl
        | cons t1 t2 =>
          have hdot : '.' ∈ cs := by
            apply mem_of_splitChar_len '.' cs
            rw [hsp]
            simp
          rw [lastLabel_cons_mem c cs hdot, ih, hsp,
            List.getLastD_cons, List.getLastD_cons, List.getLastD_cons,
            List.getLastD_cons]

/-! Lemmas about the email regex acceptor. -/

theorem l2Match_props (l : List Char) (h : l2Match l = true) :
    '.' ∈ l ∧ ((lastLabel l).length = 2 ∨ (lastLabel l).length = 3) := by
  unfold l2Match at h
  cases hsp : splitChar '.' l with
  | nil => rw [hsp] at h; simp at h
  | cons hd gs =>
    rw [hsp] at h
    simp only [Bool.and_eq_true, List.all_eq_true, List.isEmpty_eq_true,
      Bool.not_eq_true', List.isEmpty_eq_false, decide_eq_true_eq] at h
    obtain ⟨⟨hhd, hne⟩, hall⟩ := h
    subst hhd
    have hdot : '.' ∈ l := by
      apply mem_of_splitChar_len '.' l
      rw [hsp]
      cases gs with
      | nil => exact absurd rfl hne
      | cons g gs' => simp
    refine ⟨hdot, ?_⟩
    have hlast : lastLabel l = gs.getLastD [] := by
      rw [lastLabel_splitChar, hsp, List.getLastD_cons]
    have hmem : gs.getLastD [] ∈ gs := getLastD_mem gs [] hne
    have := hall _ hmem
    rw [hlast]
    rcases this with ⟨_, h2 | h3⟩
    · exact Or.inl h2
    · exact Or.inr h3

theorem emailRegexTest_lastLabel (e : String) (h : emailRegexTest e = true) :
    (lastLabel e.data).length = 2 ∨ (lastLabel e.data).length = 3 := by
  unfold emailRegexTest at h
  rw [List.any_eq_true] at h
  obtain ⟨i, _, hmatch⟩ := h
  split at hmatch
  case h_2 => simp at hmatch
  case h_1 d hdrop =>
    simp only [Bool.and_eq_true] at hmatch
    have hdom : domainMatch d = true := hmatch.2
    unfold domainMatch at hdom
    rw [List.any_eq_true] at hdom
    obtain ⟨j, _, hj⟩ := hdom
    simp only [Bool.and_eq_true] at hj
    have hl2 : l2Match (d.drop j) = true := hj.2
    obtain ⟨hdot, hlen⟩ := l2Match_props (d.drop j) hl2
    have hsplit : e.data = (e.data.take i ++ '@' :: d.take j) ++ d.drop j := by
      conv_lhs => rw [← List.take_append_drop i e.data]
      rw [hdrop]
      simp [List.take_append_drop]
    rw [hsplit, lastLabel_append_mem _ _ hdot]
    exact hlen

/-! Lemmas about `List.find?` over the store. -/

theorem find?_append_none {α} (p : α → Bool) {l1 : List α} (l2 : List α)
    (h : l1.find? p = none) : (l1 ++ l2).find? p = l2.find? p := by
  induction l1 with
  | nil => rfl
  | cons a t ih =>
    cases hpa : p a with
    | true => rw [List.find?_cons_of_pos _ hpa] at h; exact absurd h (by simp)
    | false =>
      rw [List.find?_cons_of_neg _ (by simp [hpa])] at h
      rw [List.cons_append, List.find?_cons_of_neg _ (by simp [hpa])]
      exact ih h

theorem find?_map_pred (f : User → User) (p : User → Bool)
    (hp : ∀ u, p (f u) = p u) :
    ∀ s : List User, (s.map f).find? p = (s.find? p).map f := by
  intro s
  induction s with
  | nil => rfl
  | cons a t ih =>
    cases hpa : p a with
    | true =>
      rw [List.map_cons, List.find?_cons_of_pos _ (by rw [hp]; exact hpa),
        List.find?_cons_of_pos _ hpa, Option.map_some']
    | false =>
      rw [List.map_cons, List.find?_cons_of_neg _ (by simp [hp, hpa]),
        List.find?_cons_of_neg _ (by simp [hpa]), ih]

/-- C9: a Register request whose email's final dot-separated label is
longer than three characters or shorter than two, and which passes the
validation checks that precede the email check (fields present,
confirm-password agreement, password length), is rejected by
`validateRegistrationInput` with the "Please enter a valid email" error,
so the registration handler is never reached. -/
theorem register_email_final_label_rejected
    (name email password confirmPassword : String)
    (hname : name ≠ "") (hemail : email ≠ "") (hpassword : password ≠ "")
    (hconfirm : confirmPassword = "" ∨ password = confirmPassword)
    (hlen : 6 ≤ password.length)
    (hlabel : (lastLabel email.data).length < 2 ∨ 3 < (lastLabel email.data).length) :
    validateRegistrationInput name email password confirmPassword =
      ValidationOutcome.reject 400 "Please enter a valid email" := by
  have hreg : ¬(emailRegexTest email = true) := by
    intro ht
    rcases emailRegexTest_lastLabel email ht with h2 | h3 <;> omega
  unfold validateRegistrationInput
  rw [if_neg (by push_neg; exact ⟨hname, hemail, hpassword⟩)]
  rw [if_neg ?noconf]
  case noconf =>
    rintro ⟨hc1, hc2⟩
    rcases hconfirm with hco | hco
    · exact hc1 hco
    · exact hc2 hco
  rw [if_neg (by omega), if_pos hreg]

/-- Witness for C9 at the concrete input of the claim:
`user@example.info` has the four-letter final label `info` and is
rejected even though the rest of the request is valid. -/
theorem register_email_final_label_rejected_wit :
    validateRegistrationInput "Jane Doe" "user@example.info" "secret1" "" =
      ValidationOutcome.reject 400 "Please enter a valid email" :=
  register_email_final_label_rejected "Jane Doe" "user@example.info" "secret1" ""
    (by decide) (by decide) (by decide) (Or.inl rfl) (by decide) (by decide)

/-- C1: starting from a store in which the email and its derived username
are free, a first Register succeeds (201) and a second Register with the
same email fails with the duplicate-email error (the `DuplicateError`
classification, mapped to a 400 response with message "Email already
exists"), leaves the store exactly as the first call left it, and that
store holds exactly one record with the email. -/
theorem register_duplicate_email
    (s : Store) (name email password : String) (now newId salt nonce : Nat)
    (name2 password2 : String) (now2 newId2 salt2 nonce2 : Nat)
    (hfind : s.find? (fun u => u.email = email ∨ u.username = (jsSplit '@' email).headD "") = none) :
    (registerUser s name email password now newId salt nonce).1.status = 201 ∧
    (registerUser (registerUser s name email password now newId salt nonce).2
        name2 email password2 now2 newId2 salt2 nonce2).1 =
      errResp 400 "Email already exists" ∧
    (registerUser (registerUser s name email password now newId salt nonce).2
        name2 email password2 now2 newId2 salt2 nonce2).2 =
      (registerUser s name email password now newId salt nonce).2 ∧
    ((registerUser s name email password now newId salt nonce).2.countP
        (fun u => u.email = email)) = 1 := by
  have hzero : s.countP (fun u => u.email = email) = 0 := by
    rw [List.countP_eq_zero]
    intro a ha
    have := List.find?_eq_none.mp hfind a ha
    simp only [decide_eq_true_eq] at this ⊢
    exact fun he => this (Or.inl he)
  simp only [registerUser, hfind]
  rw [find?_append_none _ _ hfind]
  simp [List.countP_append, List.countP_cons, hzero]

/-- Witness for C1: two registrations of `jane@x.com` on the empty
store. -/
theorem register_duplicate_email_wit :
    (registerUser [] "Jane Doe" "jane@x.com" "secret1" 1 1 0 0).1.status = 201 ∧
    (registerUser (registerUser [] "Jane Doe" "jane@x.com" "secret1" 1 1 0 0).2
        "Bob" "jane@x.com" "hunter22" 2 2 1 1).1 =
      errResp 400 "Email already exists" ∧
    (registerUser (registerUser [] "Jane Doe" "jane@x.com" "secret1" 1 1 0 0).2
        "Bob" "jane@x.com" "hunter22" 2 2 1 1).2 =
      (registerUser [] "Jane Doe" "jane@x.com" "secret1" 1 1 0 0).2 ∧
    ((registerUser [] "Jane Doe" "jane@x.com" "secret1" 1 1 0 0).2.countP
        (fun u => u.email = "jane@x.com")) = 1 :=
  register_duplicate_email [] "Jane Doe" "jane@x.com" "secret1" 1 1 0 0
    "Bob" "hunter22" 2 2 1 1 rfl

theorem find?_id_removeRT (s : Store) (id0 n : Nat) (t : RefreshTok) :
    (removeRefreshTokenStore s id0 t).find? (fun v => v.id = n) =
      (s.find? (fun v => v.id = n)).map
        (fun v => if v.id = id0 then
          { v with refreshTokens := v.refreshTokens.filter (fun x => ¬(x = t)) } else v) := by
  unfold removeRefreshTokenStore
  apply find?_map_pred
  intro v
  by_cases h : v.id = id0 <;> simp [h]

theorem find?_id_addRT (s : Store) (id0 n : Nat) (t : RefreshTok) :
    (addRefreshTokenStore s id0 t).find? (fun v => v.id = n) =
      (s.find? (fun v => v.id = n)).map
        (fun v => if v.id = id0 then
          { v with refreshTokens := v.refreshTokens ++ [t] } else v) := by
  unfold addRefreshTokenStore
  apply find?_map_pred
  intro v
  by_cases h : v.id = id0 <;> simp [h]

/-- C2: refresh tokens are one-time-use.  If a RefreshToken call finds the
user by the token's embedded id and the token is in the stored set, the
call succeeds; replaying the same token afterwards (the rotated
replacement being a different token) fails with `RevokedError` and leaves
the store unchanged, issuing nothing. -/
theorem refresh_replay
    (s : Store) (tok : RefreshTok) (nonce nonce2 : Nat) (u : User)
    (hfind : s.find? (fun v => v.id = tok.userId) = some u)
    (hmem : tok ∈ u.refreshTokens)
    (hne : (⟨u.id, nonce⟩ : RefreshTok) ≠ tok) :
    (refreshEndpoint s tok nonce).1.success = true ∧
    (refreshEndpoint (refreshEndpoint s tok nonce).2 tok nonce2).1 =
      errResp 401 "RevokedError" ∧
    (refreshEndpoint (refreshEndpoint s tok nonce).2 tok nonce2).2 =
      (refreshEndpoint s tok nonce).2 := by
  have h2 : (refreshEndpoint s tok nonce).2 =
      addRefreshTokenStore (removeRefreshTokenStore s u.id tok) u.id ⟨u.id, nonce⟩ := by
    simp [refreshEndpoint, hfind, hmem, generateTokens]
  have hfind2 : (addRefreshTokenStore (removeRefreshTokenStore s u.id tok) u.id
        ⟨u.id, nonce⟩).find? (fun v => v.id = tok.userId) =
      some { u with refreshTokens :=
        (u.refreshTokens.filter (fun x => ¬(x = tok))) ++ [⟨u.id, nonce⟩] } := by
    rw [find?_id_addRT, find?_id_removeRT, hfind]
    simp
  have hne' : ¬(tok = (⟨u.id, nonce⟩ : RefreshTok)) := fun h => hne h.symm
  refine ⟨by simp [refreshEndpoint, hfind, hmem], ?_, ?_⟩ <;>
    rw [h2] <;> simp [refreshEndpoint, hfind2, hne']

/-- A concrete store inhabitant used by witnesses and counterexamples. -/
def janeRecord : User :=
  { id := 1, username := "jane", email := "jane@x.com",
    passwordHash := bcryptHash 0 "secret1", firstName := "Jane", lastName := "Doe",
    role := "user", isActive := true, lastLogin := none,
    createdAt := 0, updatedAt := 0, refreshTokens := [{ userId := 1, nonce := 0 }] }

/-- Witness for C2: a user holding token `(1, 0)` refreshes once with
nonce 1, then replays the consumed token. -/
theorem refresh_replay_wit :
    (refreshEndpoint [janeRecord] { userId := 1, nonce := 0 } 1).1.success = true ∧
    (refreshEndpoint (refreshEndpoint [janeRecord] { userId := 1, nonce := 0 } 1).2
        { userId := 1, nonce := 0 } 2).1 = errResp 401 "RevokedError" ∧
    (refreshEndpoint (refreshEndpoint [janeRecord] { userId := 1, nonce := 0 } 1).2
        { userId := 1, nonce := 0 } 2).2 =
      (refreshEndpoint [janeRecord] { userId := 1, nonce := 0 } 1).2 :=
  refresh_replay [janeRecord] { userId := 1, nonce := 0 } 1 2 janeRecord
    (by decide) (by decide) (by decide)

/-- C5: from a store in which the email and its derived username are free,
a valid registration (input passing `validateRegistrationInput`) succeeds,
and a subsequent Login with the same email and plaintext password
succeeds: the stored hash verifies against the registered plaintext. -/
theorem register_then_login
    (s : Store) (name email password confirmPassword : String)
    (now newId salt nonce now2 nonce2 : Nat)
    (hval : validateRegistrationInput name email password confirmPassword =
      ValidationOutcome.next)
    (hfind : s.find? (fun u => u.email = email ∨ u.username = (jsSplit '@' email).headD "") = none) :
    (registerUser s name email password now newId salt nonce).1.status = 201 ∧
    (loginUser (registerUser s name email password now newId salt nonce).2
        email password now2 nonce2).1.status = 200 ∧
    (loginUser (registerUser s name email password now newId salt nonce).2
        email password now2 nonce2).1.success = true := by
  have hfields : ¬(name = "" ∨ email = "" ∨ password = "") := by
    intro hc
    unfold validateRegistrationInput at hval
    rw [if_pos hc] at hval
    simp at hval
  push_neg at hfields
  obtain ⟨-, hemail, hpassword⟩ := hfields
  have hnone2 : s.find? (fun u => u.email = email) = none := by
    rw [List.find?_eq_none]
    intro a ha
    have := List.find?_eq_none.mp hfind a ha
    simp only [decide_eq_true_eq] at this ⊢
    exact fun he => this (Or.inl he)
  simp only [registerUser, hfind]
  simp only [loginUser]
  rw [if_neg (by
    rintro (h | h)
    · exact hemail h
    · exact hpassword h)]
  rw [find?_append_none _ _ hnone2]
  simp [bcryptCompare, bcryptHash]

/-- Witness for C5: register Jane on the empty store, then log in with the
same credentials. -/
theorem register_then_login_wit :
    (registerUser [] "Jane Doe" "jane@x.com" "secret1" 1 1 0 0).1.status = 201 ∧
    (loginUser (registerUser [] "Jane Doe" "jane@x.com" "secret1" 1 1 0 0).2
        "jane@x.com" "secret1" 5 7).1.status = 200 ∧
    (loginUser (registerUser [] "Jane Doe" "jane@x.com" "secret1" 1 1 0 0).2
        "jane@x.com" "secret1" 5 7).1.success = true :=
  register_then_login [] "Jane Doe" "jane@x.com" "secret1" "" 1 1 0 0 5 7
    (by decide) rfl

/-- Check that a response's user view (when present) carries none of the
sensitive keys: no password, no password hash, no refresh-token set. -/
def viewKeysSafe (r : ApiResponse) : Bool :=
  match r.userView with
  | none => true
  | some v => v.all (fun kv =>
      ¬(kv.1 = "password" ∨ kv.1 = "passwordHash" ∨ kv.1 = "refreshTokens"))

/-- C4: for every operation (Register, Login, GetProfile, UpdateProfile)
and every input, the user view contained in the response has no
`password`, `passwordHash` or `refreshTokens` field; the typed payload
carries only the view and the token pair, so the plaintext password is
never part of a response. -/
theorem responses_hide_credentials :
    ∀ (s : Store) (name email password : String) (now newId salt nonce : Nat)
      (email2 password2 : String) (now2 nonce2 : Nat) (u ru : User)
      (name3 email3 : String) (now3 : Nat),
      viewKeysSafe (registerUser s name email password now newId salt nonce).1 = true ∧
      viewKeysSafe (loginUser s email2 password2 now2 nonce2).1 = true ∧
      viewKeysSafe (getCurrentUser u) = true ∧
      viewKeysSafe (updateProfile s ru name3 email3 now3).1 = true := by
  intro s name email password now newId salt nonce email2 password2 now2 nonce2 u ru
    name3 email3 now3
  refine ⟨?_, ?_, ?_, ?_⟩
  · simp only [registerUser]
    split <;> simp [viewKeysSafe, errResp, registerUserView]
  · simp only [loginUser]
    split
    · simp [viewKeysSafe, errResp]
    · split
      · simp [viewKeysSafe, errResp]
      · split
        · simp [viewKeysSafe, errResp]
        · split
          · simp [viewKeysSafe, errResp]
          · simp [viewKeysSafe, loginUserView]
  · simp [getCurrentUser, viewKeysSafe, getCurrentUserView]
  · simp only [updateProfile]
    split
    · simp [viewKeysSafe, errResp]
    · split <;> simp [viewKeysSafe, errResp, updateProfileView]

/-- C3 as amended: a Login that fails because the email matches no user
and a Login that fails because the password does not verify return the
identical response (status 401, message "Invalid email or password"), so
those two causes are indistinguishable; a Login that fails because the
account is inactive returns status 401 with the distinct message "Account
is deactivated", so that cause is distinguishable from the other two. -/
theorem login_failure_classification
    (s s2 s3 : Store) (email password email2 password2 email3 password3 : String)
    (now nonce now2 nonce2 now3 nonce3 : Nat) (u2 u3 : User)
    (hemail : email ≠ "") (hpassword : password ≠ "")
    (hemail2 : email2 ≠ "") (hpassword2 : password2 ≠ "")
    (hemail3 : email3 ≠ "") (hpassword3 : password3 ≠ "")
    (hnotfound : s.find? (fun v => v.email = email) = none)
    (hfound2 : s2.find? (fun v => v.email = email2) = some u2)
    (hactive2 : u2.isActive = true)
    (hbad2 : bcryptCompare password2 u2.passwordHash = false)
    (hfound3 : s3.find? (fun v => v.email = email3) = some u3)
    (hinactive3 : u3.isActive = false) :
    (loginUser s email password now nonce).1 =
      (loginUser s2 email2 password2 now2 nonce2).1 ∧
    (loginUser s email password now nonce).1 = errResp 401 "Invalid email or password" ∧
    (loginUser s3 email3 password3 now3 nonce3).1 = errResp 401 "Account is deactivated" ∧
    (loginUser s3 email3 password3 now3 nonce3).1 ≠
      (loginUser s email password now nonce).1 := by
  have h1 : (loginUser s email password now nonce).1 = errResp 401 "Invalid email or password" := by
    simp only [loginUser]
    rw [if_neg (by rintro (h | h); exacts [hemail h, hpassword h]), hnotfound]
  have h2 : (loginUser s2 email2 password2 now2 nonce2).1 =
      errResp 401 "Invalid email or password" := by
    simp only [loginUser]
    rw [if_neg (by rintro (h | h); exacts [hemail2 h, hpassword2 h]), hfound2]
    simp [hactive2, hbad2]
  have h3 : (loginUser s3 email3 password3 now3 nonce3).1 =
      errResp 401 "Account is deactivated" := by
    simp only [loginUser]
    rw [if_neg (by rintro (h | h); exacts [hemail3 h, hpassword3 h]), hfound3]
    simp [hinactive3]
  refine ⟨h1.trans h2.symm, h1, h3, ?_⟩
  rw [h1, h3]
  simp [errResp]

/-- Counterexample for C3 as stated: with the same store, a login failing
on an inactive account and a login failing on an unknown email carry
different messages, so the three failure causes are not all identically
classified. -/
theorem login_failure_classification_cex :
    (loginUser [{ janeRecord with isActive := false }] "jane@x.com" "secret1" 5 7).1 =
      errResp 401 "Account is deactivated" ∧
    (loginUser [{ janeRecord with isActive := false }] "zoe@x.com" "secret1" 5 7).1 =
      errResp 401 "Invalid email or password" ∧
    (loginUser [{ janeRecord with isActive := false }] "jane@x.com" "secret1" 5 7).1.message ≠
      (loginUser [{ janeRecord with isActive := false }] "zoe@x.com" "secret1" 5 7).1.message := by
  refine ⟨by decide, by decide, by decide⟩

/-- Witness for the amended C3 at concrete inputs: unknown email versus
wrong password versus inactive account. -/
theorem login_failure_classification_wit :
    (loginUser [janeRecord] "zoe@x.com" "secret1" 5 7).1 =
      (loginUser [janeRecord] "jane@x.com" "wrong99" 5 7).1 ∧
    (loginUser [janeRecord] "zoe@x.com" "secret1" 5 7).1 =
      errResp 401 "Invalid email or password" ∧
    (loginUser [{ janeRecord with isActive := false }] "jane@x.com" "secret1" 5 7).1 =
      errResp 401 "Account is deactivated" ∧
    (loginUser [{ janeRecord with isActive := false }] "jane@x.com" "secret1" 5 7).1 ≠
      (loginUser [janeRecord] "zoe@x.com" "secret1" 5 7).1 :=
  login_failure_classification [janeRecord] [janeRecord]
    [{ janeRecord with isActive := false }]
    "zoe@x.com" "secret1" "jane@x.com" "wrong99" "jane@x.com" "secret1"
    5 7 5 7 5 7 janeRecord { janeRecord with isActive := false }
    (by decide) (by decide) (by decide) (by decide) (by decide) (by decide)
    (by decide) (by decide) (by decide) (by decide) (by decide) (by decide)

/-- C8: hashing the same plaintext with two distinct salts yields two
different hash values, and each hash independently verifies against that
plaintext. -/
theorem hash_randomized_salt_verifies (p : String) (salt1 salt2 : Nat) (h : salt1 ≠ salt2) :
    bcryptHash salt1 p ≠ bcryptHash salt2 p ∧
    bcryptCompare p (bcryptHash salt1 p) = true ∧
    bcryptCompare p (bcryptHash salt2 p) = true := by
  refine ⟨?_, ?_, ?_⟩
  · intro hh
    exact h (congrArg BcryptHash.salt hh)
  · simp [bcryptCompare, bcryptHash]
  · simp [bcryptCompare, bcryptHash]

/-- Witness for C8 with plaintext `secret1` and salts 0 and 1. -/
theorem hash_randomized_salt_verifies_wit :
    bcryptHash 0 "secret1" ≠ bcryptHash 1 "secret1" ∧
    bcryptCompare "secret1" (bcryptHash 0 "secret1") = true ∧
    bcryptCompare "secret1" (bcryptHash 1 "secret1") = true :=
  hash_randomized_salt_verifies "secret1" 0 1 (by decide)

/-- C7 as amended: a successful Login writes `lastLogin := now` to the
stored record, but the user view in the response is built from the record
as fetched before that update, so it carries the previous `lastLogin`
value (null on a first login). -/
theorem login_records_lastLogin_stale_view
    (s : Store) (email password : String) (now nonce : Nat) (u : User)
    (hemail : email ≠ "") (hpassword : password ≠ "")
    (hfound : s.find? (fun v => v.email = email) = some u)
    (hactive : u.isActive = true)
    (hpw : bcryptCompare password u.passwordHash = true) :
    (loginUser s email password now nonce).1.success = true ∧
    (loginUser s email password now nonce).1.userView = some (loginUserView u) ∧
    ∀ u' ∈ (loginUser s email password now nonce).2, u'.id = u.id →
      u'.lastLogin = some now := by
  have hred : loginUser s email password now nonce =
      ({ status := 200, success := true, message := some "Login successful",
         userView := some (loginUserView u),
         accessTok := some (generateTokens u.id nonce).1,
         refreshTok := some (generateTokens u.id nonce).2 },
       addRefreshTokenStore
         (findByIdAndUpdate s u.id (fun v => { v with lastLogin := some now }) now)
         u.id (generateTokens u.id nonce).2) := by
    simp only [loginUser]
    rw [if_neg (by rintro (h | h); exacts [hemail h, hpassword h]), hfound]
    simp [hactive, hpw]
  rw [hred]
  refine ⟨rfl, rfl, ?_⟩
  intro u' hu' hid
  simp only [addRefreshTokenStore, findByIdAndUpdate, List.map_map, List.mem_map] at hu'
  obtain ⟨v, hv, rfl⟩ := hu'
  by_cases hvid : v.id = u.id
  · simp [Function.comp, hvid]
  · simp [Function.comp, hvid] at hid

/-- Witness for the amended C7: first login of Jane; the store records
time 5 while the returned view is built from the pre-login record. -/
theorem login_records_lastLogin_stale_view_wit :
    (loginUser [janeRecord] "jane@x.com" "secret1" 5 7).1.success = true ∧
    (loginUser [janeRecord] "jane@x.com" "secret1" 5 7).1.userView =
      some (loginUserView janeRecord) ∧
    ∀ u' ∈ (loginUser [janeRecord] "jane@x.com" "secret1" 5 7).2,
      u'.id = janeRecord.id → u'.lastLogin = some 5 :=
  login_records_lastLogin_stale_view [janeRecord] "jane@x.com" "secret1" 5 7 janeRecord
    (by decide) (by decide) (by decide) (by decide) (by decide)

/-- Counterexample for C7 as stated: on Jane's first login the stored
`lastLogin` becomes 5, yet the `lastLogin` field of the returned user view
is null, so the returned view does not reflect the non-null value. -/
theorem login_lastLogin_view_null_cex :
    (loginUser [janeRecord] "jane@x.com" "secret1" 5 7).1.success = true ∧
    ((loginUser [janeRecord] "jane@x.com" "secret1" 5 7).2.map User.lastLogin) = [some 5] ∧
    ((loginUser [janeRecord] "jane@x.com" "secret1" 5 7).1.userView.getD []).lookup
      "lastLogin" = some JsVal.null := by
  refine ⟨by decide, by decide, by decide⟩

/-- C6: an UpdateProfile call that supplies a name and no email change
leaves the stored record's email, username, role and password hash
unchanged and refreshes `updatedAt` to the time of the update, strictly
advancing it. -/
theorem updateProfile_name_frame
    (s : Store) (ru : User) (name : String) (now : Nat)
    (hname : name ≠ "")
    (hru : ∀ v ∈ s, v.id = ru.id → v = ru)
    (hlt : ru.updatedAt < now) :
    ∀ u' ∈ (updateProfile s ru name "" now).2, u'.id = ru.id →
      u'.email = ru.email ∧ u'.username = ru.username ∧ u'.role = ru.role ∧
      u'.passwordHash = ru.passwordHash ∧ u'.updatedAt = now ∧
      ru.updatedAt < u'.updatedAt := by
  intro u' hu' hid
  simp only [updateProfile] at hu'
  rw [if_neg (by rintro ⟨hc, -⟩; exact hc rfl)] at hu'
  split at hu' <;>
    (simp only [findByIdAndUpdate, List.mem_map] at hu'
     obtain ⟨v, hv, rfl⟩ := hu'
     by_cases hvid : v.id = ru.id
     · have hveq := hru v hv hvid
       subst hveq
       simp [jsOr, hlt]
     · simp [hvid] at hid)

/-- Witness for C6: renaming Jane to "Janet Q" at time 9, checked on the
single record of the updated store. -/
theorem updateProfile_name_frame_wit :
    ((updateProfile [janeRecord] janeRecord "Janet Q" "" 9).2.headD janeRecord).email =
      janeRecord.email ∧
    ((updateProfile [janeRecord] janeRecord "Janet Q" "" 9).2.headD janeRecord).username =
      janeRecord.username ∧
    ((updateProfile [janeRecord] janeRecord "Janet Q" "" 9).2.headD janeRecord).role =
      janeRecord.role ∧
    ((updateProfile [janeRecord] janeRecord "Janet Q" "" 9).2.headD janeRecord).passwordHash =
      janeRecord.passwordHash ∧
    ((updateProfile [janeRecord] janeRecord "Janet Q" "" 9).2.headD janeRecord).updatedAt = 9 ∧
    janeRecord.updatedAt <
      ((updateProfile [janeRecord] janeRecord "Janet Q" "" 9).2.headD janeRecord).updatedAt :=
  updateProfile_name_frame [janeRecord] janeRecord "Janet Q" 9 (by decide)
    (by decide) (by decide)
    ((updateProfile [janeRecord] janeRecord "Janet Q" "" 9).2.headD janeRecord)
    (by decide) (by decide)

/-- C10 as amended: an UpdateProfile call whose supplied name trims to a
nonempty string containing no space stores that single word as
`firstName` and stores the empty string as `lastName`, discarding any
previously stored last name. -/
theorem updateProfile_single_word_name
    (s : Store) (ru : User) (name : String) (now : Nat)
    (htrim : jsTrim name ≠ "")
    (hnospace : ' ' ∉ (jsTrim name).data) :
    ∀ u' ∈ (updateProfile s ru name "" now).2, u'.id = ru.id →
      u'.firstName = jsTrim name ∧ u'.lastName = "" := by
  have hname : name ≠ "" := by
    intro h
    subst h
    exact htrim rfl
  have hparts : jsSplit ' ' (jsTrim name) = [jsTrim name] := by
    unfold jsSplit
    rw [splitChar_not_mem ' ' _ hnospace]
    rfl
  intro u' hu' hid
  simp only [updateProfile] at hu'
  rw [if_neg (by rintro ⟨hc, -⟩; exact hc rfl)] at hu'
  split at hu' <;>
    (simp only [findByIdAndUpdate, List.mem_map] at hu'
     obtain ⟨v, hv, rfl⟩ := hu'
     by_cases hvid : v.id = ru.id
     · simp [hvid, hname, hparts, jsOr, htrim, joinSpace]
     · simp [hvid] at hid)

/-- Witness for the amended C10: renaming Jane Doe to the single word
"Janet" clears the stored last name, checked on the single record of the
updated store. -/
theorem updateProfile_single_word_name_wit :
    ((updateProfile [janeRecord] janeRecord "Janet" "" 9).2.headD janeRecord).firstName =
      jsTrim "Janet" ∧
    ((updateProfile [janeRecord] janeRecord "Janet" "" 9).2.headD janeRecord).lastName = "" :=
  updateProfile_single_word_name [janeRecord] janeRecord "Janet" 9
    (by decide) (by decide)
    ((updateProfile [janeRecord] janeRecord "Janet" "" 9).2.headD janeRecord)
    (by decide) (by decide)

/-- Counterexample for C10 as stated: the name `" "` trims to the empty
string, which contains no space, but the stored first name stays "Jane"
instead of becoming that (empty) word. -/
theorem updateProfile_single_word_name_cex :
    (' ' ∉ (jsTrim " ").data) ∧
    ((updateProfile [janeRecord] janeRecord " " "" 9).2.map
      (fun u => (u.firstName, u.lastName))) = [("Jane", "")] ∧
    ¬("Jane" = jsTrim " ") := by
  refine ⟨by decide, by decide, by decide⟩

end WaterTool
